import Mathlib

set_option autoImplicit false

namespace PdfPreformFill

-- ===========================================================================
-- Shallow embedding of the pdf-preform-fill repository.
--
-- Python dictionaries that are only ever looked up are modelled by their
-- lookup function `String → Option α`; dictionaries that are iterated over
-- are modelled as association lists in iteration order.  Python string
-- primitives are modelled character-wise on `List Char`.
-- ===========================================================================

/-- Model of Python `str.lower()` (character-wise, ASCII). -/
def pyLower (s : String) : String :=
  String.mk (s.toList.map Char.toLower)

/-- Model of Python `str.strip()`: drop whitespace at both ends. -/
def pyStrip (s : String) : String :=
  String.mk ((((s.toList.dropWhile Char.isWhitespace).reverse).dropWhile
    Char.isWhitespace).reverse)

/-- Occurrence of `needle` as a contiguous sublist of the second argument. -/
def charSub (needle : List Char) : List Char → Bool
  | [] => needle.isEmpty
  | c :: rest => needle.isPrefixOf (c :: rest) || charSub needle rest

/-- Model of Python substring membership `needle in hay`. -/
def pyIn (needle hay : String) : Bool :=
  charSub needle.toList hay.toList

/-- Model of Python `s.replace(" ", "_")`: every space character becomes an
underscore (the pattern is a single character, so Python's leftmost
non-overlapping replacement is exactly a character map). -/
def pyReplaceSpaceByUnderscore (s : String) : String :=
  String.mk (s.toList.map (fun c => if c = ' ' then '_' else c))

-- ===========================================================================
-- Data model: form field descriptors (utils/label_extractor.py)
-- ===========================================================================

/-- A form field descriptor as produced by `extract_page_fields` in
`utils/label_extractor.py`: `field_id` is the short widget name (last dotted
component), `full_field_id` the fully qualified widget name.  The x/y centre
coordinates also carried by the Python dict are only interpolated into the
classifier prompt and never read by the logic modelled here, so they are
omitted from the structure. -/
structure Field where
  field_id : String
  full_field_id : String
deriving DecidableEq, Repr

/-- The `IGNORE_PATTERNS` list of `utils/label_extractor.py`, verbatim. -/
def IGNORE_PATTERNS : List String := [
  "FormMaster", "pageSet", "section", "subform", "border",
  "table", "btn", "button", "QRCode", "signature", "SignLine",
  "CLRPNT", "Header", "Footer", "Row", "Form", "Master",
  "subSection", "RB", "ck", "image", "#subform", "#pageSet",
  "BARCOD", "Checkbox", "DateSigned", "SignHere", "FullName",
  "Check", "check", "CHK", "chk", "Radio", "radio", "Option", "option"]

/-- The `filter_noise_fields` function of `utils/label_extractor.py`:
a field is kept unless its `field_id` contains one of `IGNORE_PATTERNS`
as a substring or has fewer than 3 characters. -/
def filter_noise_fields (fields : List Field) : List Field :=
  fields.filter (fun field =>
    !(IGNORE_PATTERNS.any (fun p => pyIn p field.field_id)) &&
      !(field.field_id.length < 3))

/-- The inline `ignore_patterns` list of `map_fields_to_cdm_direct` in
`utils/field_mapper.py`, verbatim. -/
def ignore_patterns_direct : List String := [
  "FormMaster", "pageSet", "section", "subform", "border", "table",
  "btn", "QRCode", "signature", "SignLine", "CLRPNT", "Header",
  "Row", "Form", "Master", "subSection", "RB", "ck", "image",
  "#subform", "#pageSet", "BARCOD", "Checkbox", "DateSigned",
  "SignHere", "FullName"]

/-- The `filtered_fields` comprehension of `map_fields_to_cdm_direct`
(`utils/field_mapper.py`): keep names with no ignore substring and length
greater than 2. -/
def filtered_fields_direct (actual_field_names : List String) : List String :=
  actual_field_names.filter (fun f =>
    !(ignore_patterns_direct.any (fun p => pyIn p f)) && decide (2 < f.length))

-- ===========================================================================
-- Dictionary model and the batch classification orchestrator
-- (utils/label_extractor.py)
-- ===========================================================================

/-- Lookup-function model of a Python dict with string keys. -/
abbrev Dict (α : Type) : Type := String → Option α

def Dict.empty {α : Type} : Dict α := fun _ => none

def Dict.insert {α : Type} (m : Dict α) (k : String) (v : α) : Dict α :=
  fun x => if x = k then some v else m x

/-- Model of Python `d.update(other)`: entries of `other` win. -/
def Dict.update {α : Type} (m other : Dict α) : Dict α :=
  fun x =>
    match other x with
    | some v => some v
    | none => m x

/-- One entry of the parsed JSON object the classifier LLM returns for a
field: either a nested object whose `cdm_key` member is absent or null
(`obj none`) or a string (`obj (some k)`), or a bare value that is null
(`prim none`) or a string (`prim (some s)`). -/
inductive RespVal where
  | obj (cdm_key : Option String)
  | prim (value : Option String)
deriving DecidableEq, Repr

/-- The entry filter of `_process_field_chunk` (`utils/label_extractor.py`,
lines 287-296): a dict entry keeps its `cdm_key` member, a bare entry keeps
its value, in both cases only when truthy and not the literal string
`"null"`.  Note there is no membership check against the CDM schema. -/
def keep_entry : RespVal → Option String
  | RespVal.obj cdm_key =>
    match cdm_key with
    | some k => if k ≠ "" ∧ k ≠ "null" then some k else none
    | none => none
  | RespVal.prim v =>
    match v with
    | some s => if s ≠ "" ∧ s ≠ "null" then some s else none
    | none => none

/-- The response post-processing loop of `_process_field_chunk`
(`utils/label_extractor.py`, lines 286-298), building `mappings` from the
parsed classifier response. -/
def extract_chunk_mappings (result : List (String × RespVal)) : Dict String :=
  result.foldl (fun mappings entry =>
    match keep_entry entry.2 with
    | some k => mappings.insert entry.1 k
    | none => mappings) Dict.empty

/-- `_process_field_chunk` with the LLM call abstracted into `oracle`;
`oracle` returning `none` models the `except` branch (any raised exception
yields the empty dict, line 300-302).  An empty chunk returns the empty dict
up front. -/
def process_field_chunk (oracle : List Field → Option (List (String × RespVal)))
    (fields : List Field) : Dict String :=
  if fields.isEmpty then Dict.empty
  else
    match oracle fields with
    | some result => extract_chunk_mappings result
    | none => Dict.empty

/-- The chunk-merge loop of `classify_and_map_fields_llm` over an explicit
batch list: `all_mappings.update(chunk_mappings)` for each batch in order. -/
def classify_batches (oracle : List Field → Option (List (String × RespVal)))
    (batches : List (List Field)) : Dict String :=
  batches.foldl (fun all_mappings chunk =>
    all_mappings.update (process_field_chunk oracle chunk)) Dict.empty

/-- Contiguous slices `l[i:i+n]` of the Python chunking loop.  The fuel
argument (instantiated with the list length) makes the recursion structural;
for any `n ≥ 1` it is enough fuel to consume the whole list. -/
def chunksOfAux {α : Type} (n : Nat) : Nat → List α → List (List α)
  | _, [] => []
  | 0, _ :: _ => []
  | fuel + 1, x :: xs => (x :: xs).take n :: chunksOfAux n fuel ((x :: xs).drop n)

def chunksOf {α : Type} (n : Nat) (l : List α) : List (List α) :=
  chunksOfAux n l.length l

/-- `classify_and_map_fields_llm` (`utils/label_extractor.py`): return the
empty dict for an empty field list, otherwise chunk the fields and merge the
per-chunk classifier results. -/
def classify_and_map_fields_llm
    (oracle : List Field → Option (List (String × RespVal)))
    (chunk_size : Nat) (fields : List Field) : Dict String :=
  if fields.isEmpty then Dict.empty
  else classify_batches oracle (chunksOf chunk_size fields)

/-- The per-page merge loop of `process_pdf_form`
(`utils/label_extractor.py`, lines 350-359): for each filtered field whose
short id is present in the page's classifier `mappings`, store the key under
the FULL field id only, provided the key is truthy, a string, and strips to
a non-empty string. -/
def merge_page (all_mappings : Dict String) (filtered_fields : List Field)
    (mappings : Dict String) : Dict String :=
  filtered_fields.foldl (fun acc field =>
    match mappings field.field_id with
    | some cdm_key =>
      if cdm_key ≠ "" ∧ pyStrip cdm_key ≠ "" then
        acc.insert field.full_field_id cdm_key
      else acc
    | none => acc) all_mappings

/-- A document page, reduced to the field descriptors produced by
`extract_page_fields`.  The page text only feeds the classifier prompt and
is absorbed into the oracle parameter. -/
structure Page where
  fields : List Field

/-- The body of the `for page_num, page in enumerate(doc)` loop of
`process_pdf_form`, with `page_num` the 0-based index (the classifier is
called with `page_num + 1`). -/
def page_step (oracle : Nat → List Field → Option (List (String × RespVal)))
    (page_num : Nat) (all_mappings : Dict String) (page : Page) : Dict String :=
  let filtered_fields := filter_noise_fields page.fields
  if filtered_fields.isEmpty then all_mappings
  else
    merge_page all_mappings filtered_fields
      (classify_and_map_fields_llm (oracle (page_num + 1)) 50 filtered_fields)

def process_pages (oracle : Nat → List Field → Option (List (String × RespVal))) :
    Nat → List Page → Dict String → Dict String
  | _, [], all_mappings => all_mappings
  | page_num, page :: rest, all_mappings =>
    process_pages oracle (page_num + 1) rest (page_step oracle page_num all_mappings page)

/-- `process_pdf_form` (`utils/label_extractor.py`): iterate over the
document's pages, classify each page's filtered fields in chunks of 50, and
merge the results into the full-id-keyed mapping. -/
def process_pdf_form (oracle : Nat → List Field → Option (List (String × RespVal)))
    (doc : List Page) : Dict String :=
  process_pages oracle 0 doc Dict.empty

-- ===========================================================================
-- C6 / C7: properties of the region filter
-- ===========================================================================

/-- C6: for every list of regions, `filter(filter(regions)) == filter(regions)`
(idempotence), and `filter(regions)` is an order-preserving subsequence of
`regions`. -/
theorem filter_noise_fields_idempotent_sublist (regions : List Field) :
    filter_noise_fields (filter_noise_fields regions) = filter_noise_fields regions ∧
    List.Sublist (filter_noise_fields regions) regions := by
  constructor
  · simp [filter_noise_fields, List.filter_filter]
  · exact List.filter_sublist regions

/-- C7: the region filter keeps exactly the regions whose `shortId` contains no
member of the denylist as a substring and whose `shortId` is at least 3
characters long; this holds for `filter_noise_fields` (label_extractor) and
for the inline filter of `map_fields_to_cdm_direct` (field_mapper). -/
theorem filter_keeps_exactly_clean_regions :
    (∀ (fields : List Field) (r : Field),
      r ∈ filter_noise_fields fields ↔
        r ∈ fields ∧ (∀ p ∈ IGNORE_PATTERNS, ¬ pyIn p r.field_id) ∧
          3 ≤ r.field_id.length) ∧
    (∀ (names : List String) (f : String),
      f ∈ filtered_fields_direct names ↔
        f ∈ names ∧ (∀ p ∈ ignore_patterns_direct, ¬ pyIn p f) ∧
          3 ≤ f.length) := by
  constructor
  · intro fields r
    simp [filter_noise_fields, List.mem_filter, Nat.not_lt, Nat.lt_iff_add_one_le]
  · intro names f
    simp [filtered_fields_direct, List.mem_filter, Nat.lt_iff_add_one_le]

/-- Companion witness for C7: a concrete region kept by the filter. -/
theorem filter_keeps_exactly_clean_regions_witness :
    (⟨"city", "top.city"⟩ : Field) ∈ filter_noise_fields [⟨"city", "top.city"⟩] :=
  (filter_keeps_exactly_clean_regions.1 [⟨"city", "top.city"⟩] ⟨"city", "top.city"⟩).mpr
    ⟨by decide, by decide, by decide⟩

-- ===========================================================================
-- C2: handling of classifier response entries
-- ===========================================================================

/-- The batch-of-3 classifier response of the spec's concrete scenario:
`{"A": "account.number", "B": null, "C": "bogus.key"}`. -/
def exampleResponse : List (String × RespVal) :=
  [("A", RespVal.prim (some "account.number")),
   ("B", RespVal.prim none),
   ("C", RespVal.prim (some "bogus.key"))]

/-- The schema `{account.number, person.ssn}` of the spec's concrete
scenario. -/
def exampleSchema : List String := ["account.number", "person.ssn"]

theorem extract_lookup_of_all_none (result : List (String × RespVal))
    (s : String) (acc : Dict String)
    (h : ∀ rv, (s, rv) ∈ result → keep_entry rv = none) :
    (result.foldl (fun mappings entry =>
      match keep_entry entry.2 with
      | some k => mappings.insert entry.1 k
      | none => mappings) acc) s = acc s := by
  induction result generalizing acc with
  | nil => rfl
  | cons e t ih =>
    simp only [List.foldl_cons]
    rcases he : keep_entry e.2 with _ | k
    · exact ih acc (fun rv hrv => h rv (List.mem_cons_of_mem e hrv))
    · by_cases hk : s = e.1
      · exfalso
        have : keep_entry e.2 = none := h e.2 (by rw [hk]; exact List.mem_cons_self _ _)
        rw [he] at this; exact Option.some_ne_none k this
      · rw [ih]
        · simp [Dict.insert, hk]
        · exact fun rv hrv => h rv (List.mem_cons_of_mem e hrv)

theorem extract_lookup_some_src (result : List (String × RespVal))
    (s v : String) (acc : Dict String)
    (h : (result.foldl (fun mappings entry =>
      match keep_entry entry.2 with
      | some k => mappings.insert entry.1 k
      | none => mappings) acc) s = some v) :
    acc s = some v ∨ ∃ rv, (s, rv) ∈ result ∧ keep_entry rv = some v := by
  induction result generalizing acc with
  | nil => exact Or.inl h
  | cons e t ih =>
    simp only [List.foldl_cons] at h
    rcases he : keep_entry e.2 with _ | k
    · rw [he] at h
      rcases ih acc h with h1 | ⟨rv, hrv, hk⟩
      · exact Or.inl h1
      · exact Or.inr ⟨rv, List.mem_cons_of_mem e hrv, hk⟩
    · rw [he] at h
      rcases ih _ h with h1 | ⟨rv, hrv, hk⟩
      · by_cases hk' : s = e.1
        · have hkv : some k = some v := by
            simpa [Dict.insert, hk'] using h1
          refine Or.inr ⟨e.2, ?_, ?_⟩
          · have heq : (s, e.2) = e := by rw [hk']
            rw [heq]; exact List.mem_cons_self _ _
          · rw [he]; exact hkv
        · simp only [Dict.insert, if_neg hk'] at h1
          exact Or.inl h1
      · exact Or.inr ⟨rv, List.mem_cons_of_mem e hrv, hk⟩

theorem keep_entry_some_shape (rv : RespVal) (v : String)
    (h : keep_entry rv = some v) :
    (rv = RespVal.obj (some v) ∨ rv = RespVal.prim (some v)) ∧
      v ≠ "" ∧ v ≠ "null" := by
  cases rv with
  | obj ck =>
    cases ck with
    | none => simp [keep_entry] at h
    | some k =>
      simp only [keep_entry] at h
      by_cases hk : k ≠ "" ∧ k ≠ "null"
      · rw [if_pos hk] at h
        cases h
        exact ⟨Or.inl rfl, hk⟩
      · rw [if_neg hk] at h; cases h
  | prim vv =>
    cases vv with
    | none => simp [keep_entry] at h
    | some s =>
      simp only [keep_entry] at h
      by_cases hk : s ≠ "" ∧ s ≠ "null"
      · rw [if_pos hk] at h
        cases h
        exact ⟨Or.inr rfl, hk⟩
      · rw [if_neg hk] at h; cases h

/-- C2 counterexample: `_process_field_chunk` performs no schema-membership
check, so for the spec's batch of 3 against schema
`{account.number, person.ssn}` the extracted mapping DOES contain
`C → "bogus.key"`, an unrecognized key, contradicting the claim that `C` is
absent from Mapping. -/
theorem chunk_mappings_keep_unrecognized_key :
    extract_chunk_mappings exampleResponse "C" = some "bogus.key" ∧
    "bogus.key" ∉ exampleSchema ∧
    extract_chunk_mappings exampleResponse "A" = some "account.number" ∧
    extract_chunk_mappings exampleResponse "B" = none := by
  refine ⟨by decide, by decide, by decide, by decide⟩

/-- C2 amended: an entry that is absent, null, empty, or the literal string
`"null"` leaves its region absent from the chunk mapping, but any other
returned string is written whether or not it is a recognized schema key; in
the batch-of-3 scenario the mapping contains `A → account.number` AND
`C → bogus.key`, with only `B` absent. -/
theorem chunk_mappings_amended :
    (∀ (result : List (String × RespVal)) (s v : String),
      extract_chunk_mappings result s = some v →
        ((s, RespVal.obj (some v)) ∈ result ∨ (s, RespVal.prim (some v)) ∈ result) ∧
          v ≠ "" ∧ v ≠ "null") ∧
    (∀ (result : List (String × RespVal)) (s : String),
      (∀ rv, (s, rv) ∈ result → keep_entry rv = none) →
        extract_chunk_mappings result s = none) ∧
    (extract_chunk_mappings exampleResponse "A" = some "account.number" ∧
      extract_chunk_mappings exampleResponse "B" = none ∧
      extract_chunk_mappings exampleResponse "C" = some "bogus.key") := by
  refine ⟨?_, ?_, by decide, by decide, by decide⟩
  · intro result s v h
    rcases extract_lookup_some_src result s v Dict.empty h with h1 | ⟨rv, hrv, hk⟩
    · cases h1
    · rcases keep_entry_some_shape rv v hk with ⟨hshape, hne⟩
      rcases hshape with h2 | h2
      · exact ⟨Or.inl (h2 ▸ hrv), hne⟩
      · exact ⟨Or.inr (h2 ▸ hrv), hne⟩
  · intro result s h
    exact extract_lookup_of_all_none result s Dict.empty h

/-- Witness for C2's amended theorem at concrete inputs: the null entry `B`
is absent from the extracted mapping. -/
theorem chunk_mappings_amended_witness :
    extract_chunk_mappings [("B", RespVal.prim none)] "B" = none :=
  chunk_mappings_amended.2.1 [("B", RespVal.prim none)] "B"
    (by intro rv hrv; cases hrv with
        | head => rfl
        | tail _ h => cases h)

-- ===========================================================================
-- C3: fail-open behaviour of the batch orchestrator
-- ===========================================================================

theorem process_field_chunk_none
    (oracle : List Field → Option (List (String × RespVal))) (b : List Field)
    (hfail : oracle b = none) : process_field_chunk oracle b = Dict.empty := by
  unfold process_field_chunk
  rw [hfail]
  split <;> rfl

theorem Dict.update_empty {α : Type} (m : Dict α) : m.update Dict.empty = m := rfl

theorem classify_batches_erase_failed
    (oracle : List Field → Option (List (String × RespVal)))
    (L R : List (List Field)) (b : List Field) (hfail : oracle b = none) :
    classify_batches oracle (L ++ b :: R) = classify_batches oracle (L ++ R) := by
  unfold classify_batches
  rw [List.foldl_append, List.foldl_append, List.foldl_cons,
    process_field_chunk_none oracle b hfail, Dict.update_empty]

/-- Fields used by the C3 counterexample: two regions sharing the short id
`"dup"`; two regions sharing the short id `"bbb"`. -/
def cexF1 : Field := ⟨"dup", "F01"⟩

def cexF2 : Field := ⟨"dup", "F02"⟩

def cexG1 : Field := ⟨"bbb", "G01"⟩

def cexG2 : Field := ⟨"bbb", "G02"⟩

/-- Oracle for C3 scenario 1: raises on the batch `[cexF1]`, answers
`dup → kk` elsewhere. -/
def cexOracle : List Field → Option (List (String × RespVal)) :=
  fun chunk => if chunk = [cexF1] then none
    else some [("dup", RespVal.prim (some "kk"))]

/-- Oracle for C3 scenario 2, failing variant: raises on `[cexG1]`. -/
def cexOracleF : List Field → Option (List (String × RespVal)) :=
  fun chunk => if chunk = [cexG1] then none
    else some [("bbb", RespVal.prim (some "ka"))]

/-- Oracle for C3 scenario 2, succeeding variant: agrees with `cexOracleF`
except on `[cexG1]`, where it returns `bbb → kb`. -/
def cexOracleS : List Field → Option (List (String × RespVal)) :=
  fun chunk => if chunk = [cexG1] then some [("bbb", RespVal.prim (some "kb"))]
    else some [("bbb", RespVal.prim (some "ka"))]

/-- C3 counterexample.  Scenario 1: region `F01`'s batch raises, yet `F01`
appears in the merged Mapping because another batch returned a key for the
same short id `dup`.  Scenario 2: region `G02`'s batch succeeds, but its
Mapping entry differs between a run where the later batch `[cexG1]` raises
and a run where it succeeds with a response covering `G02`'s short id — so
regions of other batches are not "mapped exactly as they would be had that
batch not failed". -/
theorem classify_fail_open_cex :
    (cexOracle [cexF1] = none ∧
      merge_page Dict.empty [cexF1, cexF2]
        (classify_batches cexOracle [[cexF1], [cexF2]]) "F01" = some "kk") ∧
    (cexOracleF [cexG1] = none ∧
      cexOracleS [cexG1] = some [("bbb", RespVal.prim (some "kb"))] ∧
      cexOracleF [cexG2] = cexOracleS [cexG2] ∧
      merge_page Dict.empty [cexG2, cexG1]
        (classify_batches cexOracleF [[cexG2], [cexG1]]) "G02" = some "ka" ∧
      merge_page Dict.empty [cexG2, cexG1]
        (classify_batches cexOracleS [[cexG2], [cexG1]]) "G02" = some "kb" ∧
      ("ka" : String) ≠ "kb") := by
  refine ⟨⟨by decide, by decide⟩, by decide, by decide, by decide, by decide,
    by decide, by decide⟩

/-- C3 amended: when the classifier raises for one batch, the merged
short-id mapping — and hence any full-id Mapping derived from it by the
per-page merge — is exactly the one obtained with that batch skipped: the
batch contributes no entry and the remaining batches are still processed
unchanged.  Consequently a region of the failed batch is absent from
Mapping unless another batch's response covers its short id, and a region
of another batch is unaffected unless the failed batch's counterfactual
response would have covered its short id. -/
theorem classify_fail_open_amended
    (oracle : List Field → Option (List (String × RespVal)))
    (L R : List (List Field)) (b : List Field) (hfail : oracle b = none) :
    classify_batches oracle (L ++ b :: R) = classify_batches oracle (L ++ R) ∧
    ∀ (all_mappings : Dict String) (filtered_fields : List Field),
      merge_page all_mappings filtered_fields
          (classify_batches oracle (L ++ b :: R)) =
        merge_page all_mappings filtered_fields
          (classify_batches oracle (L ++ R)) := by
  have h := classify_batches_erase_failed oracle L R b hfail
  exact ⟨h, fun all_mappings filtered_fields => by rw [h]⟩

/-- Witness for C3's amended theorem: concrete batches where the middle
batch raises. -/
theorem classify_fail_open_amended_witness :
    classify_batches cexOracleF ([[cexG2]] ++ [cexG1] :: []) =
      classify_batches cexOracleF ([[cexG2]] ++ []) :=
  (classify_fail_open_amended cexOracleF [[cexG2]] [] [cexG1] (by decide)).1

-- ===========================================================================
-- C1: collision safety of the full-id merge in process_pdf_form
-- ===========================================================================

theorem isEmpty_false_of_mem {α : Type} {a : α} {l : List α} (h : a ∈ l) :
    l.isEmpty = false := by
  cases l with
  | nil => cases h
  | cons x xs => rfl

theorem merge_page_lookup_frame (all_mappings : Dict String)
    (filtered_fields : List Field) (mappings : Dict String) (fid : String)
    (h : ∀ f ∈ filtered_fields, f.full_field_id ≠ fid) :
    merge_page all_mappings filtered_fields mappings fid = all_mappings fid := by
  induction filtered_fields generalizing all_mappings with
  | nil => rfl
  | cons f t ih =>
    have hf : f.full_field_id ≠ fid := h f (List.mem_cons_self _ _)
    have ht : ∀ g ∈ t, g.full_field_id ≠ fid :=
      fun g hg => h g (List.mem_cons_of_mem f hg)
    unfold merge_page
    rw [List.foldl_cons]
    rcases hm : mappings f.field_id with _ | k
    · simp only [hm]
      exact ih all_mappings ht
    · simp only [hm]
      by_cases hv : k ≠ "" ∧ pyStrip k ≠ ""
      · rw [if_pos hv]
        have := ih (all_mappings.insert f.full_field_id k) ht
        unfold merge_page at this
        rw [this]
        simp only [Dict.insert]
        rw [if_neg (fun hc => hf hc.symm)]
      · rw [if_neg hv]
        exact ih all_mappings ht

theorem merge_page_append (all_mappings : Dict String) (s t : List Field)
    (mappings : Dict String) :
    merge_page all_mappings (s ++ t) mappings =
      merge_page (merge_page all_mappings s mappings) t mappings := by
  unfold merge_page
  rw [List.foldl_append]

theorem merge_page_lookup_write (all_mappings : Dict String)
    (s t : List Field) (r : Field) (mappings : Dict String) (k : String)
    (hk : mappings r.field_id = some k) (hv : k ≠ "" ∧ pyStrip k ≠ "")
    (ht : ∀ g ∈ t, g.full_field_id ≠ r.full_field_id) :
    merge_page all_mappings (s ++ r :: t) mappings r.full_field_id = some k := by
  rw [merge_page_append]
  have hcons : merge_page (merge_page all_mappings s mappings) (r :: t) mappings =
      merge_page ((merge_page all_mappings s mappings).insert r.full_field_id k)
        t mappings := by
    unfold merge_page
    rw [List.foldl_cons]
    simp only [hk]
    rw [if_pos hv]
  rw [hcons,
    merge_page_lookup_frame _ t mappings r.full_field_id ht]
  simp [Dict.insert]

theorem process_pages_frame
    (oracle : Nat → List Field → Option (List (String × RespVal)))
    (pages : List Page) (n : Nat) (all_mappings : Dict String) (fid : String)
    (h : ∀ pg ∈ pages, ∀ f ∈ filter_noise_fields pg.fields,
      f.full_field_id ≠ fid) :
    process_pages oracle n pages all_mappings fid = all_mappings fid := by
  induction pages generalizing n all_mappings with
  | nil => rfl
  | cons pg rest ih =>
    have hpg : ∀ f ∈ filter_noise_fields pg.fields, f.full_field_id ≠ fid :=
      h pg (List.mem_cons_self _ _)
    have hrest : ∀ q ∈ rest, ∀ f ∈ filter_noise_fields q.fields,
        f.full_field_id ≠ fid :=
      fun q hq => h q (List.mem_cons_of_mem pg hq)
    show process_pages oracle (n + 1) rest (page_step oracle n all_mappings pg) fid
      = all_mappings fid
    rw [ih (n + 1) _ hrest]
    unfold page_step
    split
    · rfl
    · exact merge_page_lookup_frame all_mappings _ _ fid hpg

theorem process_pages_append
    (oracle : Nat → List Field → Option (List (String × RespVal)))
    (l1 l2 : List Page) (n : Nat) (all_mappings : Dict String) :
    process_pages oracle n (l1 ++ l2) all_mappings =
      process_pages oracle (n + l1.length) l2
        (process_pages oracle n l1 all_mappings) := by
  induction l1 generalizing n all_mappings with
  | nil => rfl
  | cons pg rest ih =>
    show process_pages oracle (n + 1) (rest ++ l2) (page_step oracle n all_mappings pg)
      = process_pages oracle (n + (rest.length + 1)) l2 _
    rw [ih (n + 1) (page_step oracle n all_mappings pg),
      show n + 1 + rest.length = n + (rest.length + 1) by omega]
    rfl

/-- All field descriptors of a document, page by page. -/
def allFields : List Page → List Field
  | [] => []
  | pg :: rest => pg.fields ++ allFields rest

theorem allFields_append (x y : List Page) :
    allFields (x ++ y) = allFields x ++ allFields y := by
  induction x with
  | nil => rfl
  | cons pg rest ih =>
    show pg.fields ++ allFields (rest ++ y) = (pg.fields ++ allFields rest) ++ allFields y
    rw [ih, List.append_assoc]

theorem mem_allFields {f : Field} {pg : Page} {pages : List Page}
    (hpg : pg ∈ pages) (hf : f ∈ pg.fields) : f ∈ allFields pages := by
  induction pages with
  | nil => cases hpg
  | cons q rest ih =>
    rcases List.mem_cons.mp hpg with h | h
    · subst h
      exact List.mem_append_left _ hf
    · exact List.mem_append_right _ (ih h)

/-- The invariant of the spec's data model (§3): `fullId` is unique within a
document. -/
def FullIdsUnique (doc : List Page) : Prop :=
  (allFields doc).Pairwise (fun a b => a.full_field_id ≠ b.full_field_id)

instance fullIdsUniqueDecidable (doc : List Page) : Decidable (FullIdsUnique doc) :=
  inferInstanceAs (Decidable ((allFields doc).Pairwise
    (fun (a b : Field) => a.full_field_id ≠ b.full_field_id)))

theorem pairwise_full_ne_of_mem_filtered {l : List Field} {r : Field}
    (hpw : l.Pairwise (fun a b => a.full_field_id ≠ b.full_field_id))
    (hr : r ∈ filter_noise_fields l) :
    ∃ s t, filter_noise_fields l = s ++ r :: t ∧
      ∀ g ∈ t, g.full_field_id ≠ r.full_field_id := by
  have hpwf : (filter_noise_fields l).Pairwise
      (fun a b => a.full_field_id ≠ b.full_field_id) :=
    List.Pairwise.sublist (List.filter_sublist l) hpw
  rcases List.append_of_mem hr with ⟨s, t, hst⟩
  refine ⟨s, t, hst, ?_⟩
  rw [hst] at hpwf
  have h2 := (List.pairwise_append.mp hpwf).2.1
  have h3 := (List.pairwise_cons.mp h2).1
  exact fun g hg => (h3 g hg).symm

/-- C1 amended: for two filtered regions with identical `shortId` but
distinct `fullId` that lie on DIFFERENT pages (the spec's "different
simulated sections"), given that the merged per-page classifier result of
each region's page assigns its short id a key that survives the validity
check (non-empty after stripping), the Mapping produced by
`process_pdf_form` contains both `fullId`s, each bound to the key of its own
page's occurrence — no overwrite.  (On one and the same page the two
occurrences share a single per-page dict entry keyed by `shortId`, so both
`fullId`s are present but bound to the same page-level key; see the
counterexample.) -/
theorem process_pdf_form_collision_safe
    (oracle : Nat → List Field → Option (List (String × RespVal)))
    (A B C : List Page) (p1 p2 : Page) (r1 r2 : Field) (k1 k2 : String)
    (h1 : r1 ∈ filter_noise_fields p1.fields)
    (h2 : r2 ∈ filter_noise_fields p2.fields)
    (hshort : r1.field_id = r2.field_id)
    (hfull : r1.full_field_id ≠ r2.full_field_id)
    (huniq : FullIdsUnique (A ++ (p1 :: (B ++ (p2 :: C)))))
    (hk1 : classify_and_map_fields_llm (oracle (A.length + 1)) 50
      (filter_noise_fields p1.fields) r1.field_id = some k1)
    (hk2 : classify_and_map_fields_llm (oracle (A.length + B.length + 2)) 50
      (filter_noise_fields p2.fields) r2.field_id = some k2)
    (hv1 : k1 ≠ "" ∧ pyStrip k1 ≠ "") (hv2 : k2 ≠ "" ∧ pyStrip k2 ≠ "") :
    process_pdf_form oracle (A ++ (p1 :: (B ++ (p2 :: C)))) r1.full_field_id
        = some k1 ∧
    process_pdf_form oracle (A ++ (p1 :: (B ++ (p2 :: C)))) r2.full_field_id
        = some k2 := by
  have hr1f : r1 ∈ p1.fields := by
    have h := h1
    unfold filter_noise_fields at h
    exact List.mem_of_mem_filter h
  have hr2f : r2 ∈ p2.fields := by
    have h := h2
    unfold filter_noise_fields at h
    exact List.mem_of_mem_filter h
  have hList : allFields (A ++ (p1 :: (B ++ (p2 :: C)))) =
      allFields A ++ (p1.fields ++ (allFields B ++ (p2.fields ++ allFields C))) := by
    rw [allFields_append]
    show allFields A ++ (p1.fields ++ allFields (B ++ (p2 :: C))) = _
    rw [allFields_append]
    rfl
  have hu : (allFields A ++ (p1.fields ++ (allFields B ++ (p2.fields ++ allFields C)))).Pairwise
      (fun a b => a.full_field_id ≠ b.full_field_id) := by
    have h := huniq
    unfold FullIdsUnique at h
    rwa [hList] at h
  obtain ⟨-, hu1, -⟩ := List.pairwise_append.mp hu
  obtain ⟨hup1, hu2, hcross1⟩ := List.pairwise_append.mp hu1
  obtain ⟨-, hu3, -⟩ := List.pairwise_append.mp hu2
  obtain ⟨hup2, -, hcross2⟩ := List.pairwise_append.mp hu3
  have hlater1 : ∀ pg ∈ B ++ (p2 :: C), ∀ f ∈ filter_noise_fields pg.fields,
      f.full_field_id ≠ r1.full_field_id := by
    intro pg hpg f hf
    have hff : f ∈ pg.fields := by
      have h := hf
      unfold filter_noise_fields at h
      exact List.mem_of_mem_filter h
    have hfm : f ∈ allFields (B ++ (p2 :: C)) := mem_allFields hpg hff
    have hfm2 : f ∈ allFields B ++ allFields (p2 :: C) := by
      rwa [allFields_append] at hfm
    exact (hcross1 r1 hr1f f hfm2).symm
  have hlater2 : ∀ pg ∈ C, ∀ f ∈ filter_noise_fields pg.fields,
      f.full_field_id ≠ r2.full_field_id := by
    intro pg hpg f hf
    have hff : f ∈ pg.fields := by
      have h := hf
      unfold filter_noise_fields at h
      exact List.mem_of_mem_filter h
    exact (hcross2 r2 hr2f f (mem_allFields hpg hff)).symm
  have hne1 : (filter_noise_fields p1.fields).isEmpty = false :=
    isEmpty_false_of_mem h1
  have hne2 : (filter_noise_fields p2.fields).isEmpty = false :=
    isEmpty_false_of_mem h2
  have hmerge1 : ∀ (acc : Dict String) (m : Dict String),
      m r1.field_id = some k1 →
      merge_page acc (filter_noise_fields p1.fields) m r1.full_field_id = some k1 := by
    intro acc m hm
    rcases pairwise_full_ne_of_mem_filtered hup1 h1 with ⟨s, t, hst, htail⟩
    rw [hst]
    exact merge_page_lookup_write acc s t r1 m k1 hm hv1 htail
  have hmerge2 : ∀ (acc : Dict String) (m : Dict String),
      m r2.field_id = some k2 →
      merge_page acc (filter_noise_fields p2.fields) m r2.full_field_id = some k2 := by
    intro acc m hm
    rcases pairwise_full_ne_of_mem_filtered hup2 h2 with ⟨s, t, hst, htail⟩
    rw [hst]
    exact merge_page_lookup_write acc s t r2 m k2 hm hv2 htail
  constructor
  · unfold process_pdf_form
    rw [process_pages_append oracle A (p1 :: (B ++ (p2 :: C))) 0 Dict.empty,
      Nat.zero_add]
    show process_pages oracle (A.length + 1) (B ++ (p2 :: C))
      (page_step oracle A.length (process_pages oracle 0 A Dict.empty) p1)
      r1.full_field_id = some k1
    rw [process_pages_frame oracle (B ++ (p2 :: C)) (A.length + 1) _
      r1.full_field_id hlater1]
    simp only [page_step, hne1, Bool.false_eq_true, if_false]
    exact hmerge1 _ _ hk1
  · unfold process_pdf_form
    have hdoc2 : A ++ (p1 :: (B ++ (p2 :: C))) = (A ++ (p1 :: B)) ++ (p2 :: C) := by
      simp [List.append_assoc]
    rw [hdoc2,
      process_pages_append oracle (A ++ (p1 :: B)) (p2 :: C) 0 Dict.empty,
      Nat.zero_add,
      show (A ++ (p1 :: B)).length = A.length + B.length + 1 by
        simp only [List.length_append, List.length_cons]
        omega]
    show process_pages oracle (A.length + B.length + 1 + 1) C
      (page_step oracle (A.length + B.length + 1)
        (process_pages oracle 0 (A ++ (p1 :: B)) Dict.empty) p2)
      r2.full_field_id = some k2
    rw [process_pages_frame oracle C (A.length + B.length + 1 + 1) _
      r2.full_field_id hlater2]
    simp only [page_step, hne2, Bool.false_eq_true, if_false]
    exact hmerge2 _ _ hk2

/-- Filler fields for the C1 counterexample page (pass the noise filter and
collide with nothing). -/
def cexFill : List Field :=
  (List.range 49).map (fun i => ⟨"fld" ++ toString i, "full" ++ toString i⟩)

/-- A single 51-field page whose first and last field share the short id
`"dup"`: chunking at 50 puts the two occurrences into different batches. -/
def cexPage1Fields : List Field :=
  (⟨"dup", "FULL0"⟩ : Field) :: (cexFill ++ [(⟨"dup", "FULL50"⟩ : Field)])

def cexDoc : List Page := [⟨cexPage1Fields⟩]

/-- Classifier for the C1 counterexample: the batch containing `FULL0`
receives `dup → key1`, any other batch receives `dup → key2`. -/
def cexOracle1 : Nat → List Field → Option (List (String × RespVal)) :=
  fun _ chunk =>
    if (⟨"dup", "FULL0"⟩ : Field) ∈ chunk then
      some [("dup", RespVal.prim (some "key1"))]
    else some [("dup", RespVal.prim (some "key2"))]

/-- C1 counterexample: both occurrences of short id `dup` are filtered
regions with distinct full ids; the classifier returns `key1` for the batch
holding `FULL0` and `key2` for the batch holding `FULL50`; yet the merged
Mapping binds BOTH full ids to `key2`, because the per-page classifier
results are merged into one dict keyed by short id before the full-id write.
`FULL0` is thus not bound to the key returned for its own occurrence. -/
theorem process_pdf_form_collision_cex :
    ((⟨"dup", "FULL0"⟩ : Field) ∈ filter_noise_fields cexPage1Fields ∧
      (⟨"dup", "FULL50"⟩ : Field) ∈ filter_noise_fields cexPage1Fields ∧
      ("FULL0" : String) ≠ "FULL50") ∧
    (chunksOf 50 (filter_noise_fields cexPage1Fields)).map
        (fun c => (cexOracle1 1 c,
          decide ((⟨"dup", "FULL0"⟩ : Field) ∈ c),
          decide ((⟨"dup", "FULL50"⟩ : Field) ∈ c))) =
      [(some [("dup", RespVal.prim (some "key1"))], true, false),
        (some [("dup", RespVal.prim (some "key2"))], false, true)] ∧
    process_pdf_form cexOracle1 cexDoc "FULL0" = some "key2" ∧
    process_pdf_form cexOracle1 cexDoc "FULL50" = some "key2" ∧
    ("key2" : String) ≠ "key1" := by
  refine ⟨⟨by decide, by decide, by decide⟩, by decide, by decide, by decide,
    by decide⟩

/-- Page-indexed classifier for the C1 witness: page 1 maps `dup → cityA`,
any other page maps `dup → cityB`. -/
def witOracle : Nat → List Field → Option (List (String × RespVal)) :=
  fun n _ =>
    if n = 1 then some [("dup", RespVal.prim (some "cityA"))]
    else some [("dup", RespVal.prim (some "cityB"))]

/-- Witness for C1's amended theorem: a concrete two-page document whose
pages each hold one region with short id `dup`; both full ids end up in the
Mapping with their own page's key. -/
theorem process_pdf_form_collision_safe_witness :
    process_pdf_form witOracle
        ([] ++ ((⟨[⟨"dup", "P1dup"⟩]⟩ : Page) ::
          ([] ++ ((⟨[⟨"dup", "P2dup"⟩]⟩ : Page) :: [])))) "P1dup" = some "cityA" ∧
    process_pdf_form witOracle
        ([] ++ ((⟨[⟨"dup", "P1dup"⟩]⟩ : Page) ::
          ([] ++ ((⟨[⟨"dup", "P2dup"⟩]⟩ : Page) :: [])))) "P2dup" = some "cityB" :=
  process_pdf_form_collision_safe witOracle [] [] []
    ⟨[⟨"dup", "P1dup"⟩]⟩ ⟨[⟨"dup", "P2dup"⟩]⟩
    ⟨"dup", "P1dup"⟩ ⟨"dup", "P2dup"⟩ "cityA" "cityB"
    (by decide) (by decide) rfl (by decide) (by decide)
    (by decide) (by decide) ⟨by decide, by decide⟩ ⟨by decide, by decide⟩

-- ===========================================================================
-- C4: the key inference engine (cdm_builder.py)
-- ===========================================================================

/-- A token of one alternative of a `FIELD_PATTERNS` regex: a literal string
or an optional underscore (the regex fragment of an underscore followed by a
question mark).  Every regex in `cdm_builder.FIELD_PATTERNS` is an anchored
alternation of such token sequences, so this small AST captures them
exactly. -/
inductive PatTok where
  | lit (s : String)
  | optUnd
deriving DecidableEq, Repr

/-- One alternative of an anchored alternation. -/
abbrev PatAlt := List PatTok

/-- One registry regex: an alternation of alternatives, anchored at both
ends. -/
abbrev Pat := List PatAlt

/-- All strings an alternative can denote (the optional underscore expands
to both the empty string and an underscore). -/
def altStrings : PatAlt → List String
  | [] => [""]
  | PatTok.lit s :: rest => (altStrings rest).map (fun r => s ++ r)
  | PatTok.optUnd :: rest =>
    altStrings rest ++ (altStrings rest).map (fun r => "_" ++ r)

/-- Anchored full-match of a registry regex against a string. -/
def patMatch (p : Pat) (s : String) : Bool :=
  p.any (fun alt => (altStrings alt).contains s)

/-- Alternative consisting of a single literal. -/
def alt1 (s : String) : PatAlt := [PatTok.lit s]

/-- Alternative `a_?b`. -/
def altU (a b : String) : PatAlt := [PatTok.lit a, PatTok.optUnd, PatTok.lit b]

/-- Alternative `a_?b_?c`. -/
def altU2 (a b c : String) : PatAlt :=
  [PatTok.lit a, PatTok.optUnd, PatTok.lit b, PatTok.optUnd, PatTok.lit c]

/-- The `FIELD_PATTERNS` registry of `cdm_builder.py`, transcribed regex by
regex in insertion order. -/
def FIELD_PATTERNS : List (String × List Pat) := [
  ("person.full_name",
    [[altU "full" "name", alt1 "name", altU2 "full" "legal" "name"],
     [altU "client" "name", altU "customer" "name"]]),
  ("person.first_name",
    [[altU "first" "name", altU "given" "name", alt1 "fname"]]),
  ("person.middle_name",
    [[altU "middle" "name", altU "middle" "initial", alt1 "mname", alt1 "mi"]]),
  ("person.last_name",
    [[altU "last" "name", alt1 "surname", altU "family" "name", alt1 "lname"]]),
  ("person.suffix",
    [[alt1 "suffix", altU "name" "suffix", altU "jr" "sr"]]),
  ("person.ssn",
    [[alt1 "ssn", altU "social" "security", altU "tax" "id", alt1 "ein", alt1 "tin"]]),
  ("person.phone",
    [[alt1 "phone", alt1 "mobile", alt1 "cell", alt1 "telephone", altU "contact" "number"],
     [altU "phone" "number", altU "mobile" "number"]]),
  ("person.phone_extension",
    [[alt1 "ext", alt1 "extension", altU "phone" "ext"]]),
  ("person.email",
    [[alt1 "email", altU "e" "mail", altU "email" "address"]]),
  ("person.dob",
    [[alt1 "dob", altU2 "date" "of" "birth", altU "birth" "date", alt1 "birthdate"]]),
  ("person.address",
    [[alt1 "address", altU "full" "address", altU "mailing" "address"]]),
  ("person.street",
    [[alt1 "street", altU "street" "address", altU "address" "line", alt1 "addr"],
     [altU "street" "1", altU "address" "1"]]),
  ("person.city",
    [[alt1 "city"]]),
  ("person.state",
    [[alt1 "state", alt1 "province"]]),
  ("person.zip",
    [[alt1 "zip", altU "zip" "code", altU "postal" "code", alt1 "postcode"]]),
  ("account.number",
    [[altU "account" "number", altU "acct" "num", altU "account" "no"]]),
  ("account.type",
    [[altU "account" "type", altU "acct" "type"]]),
  ("bank.name",
    [[altU "bank" "name", altU "institution" "name", altU "financial" "institution"]]),
  ("bank.routing",
    [[alt1 "routing", altU "routing" "number", alt1 "aba", altU "aba" "number"]])]

/-- The registry scan of `infer_cdm_key`: first key (in insertion order) one
of whose regexes matches the normalized name wins; `none` if no key
matches. -/
def findKeyByPatterns : List (String × List Pat) → String → Option String
  | [], _ => none
  | (cdm_key, pats) :: rest, normalized =>
    if pats.any (fun p => patMatch p normalized) then some cdm_key
    else findKeyByPatterns rest normalized

/-- `infer_cdm_key` of `cdm_builder.py`: normalize via
`field_name.lower().strip().replace(" ", "_")` — note every single space
becomes an underscore, runs are NOT collapsed — then scan the registry. -/
def infer_cdm_key (field_name : String) : Option String :=
  findKeyByPatterns FIELD_PATTERNS
    (pyReplaceSpaceByUnderscore (pyStrip (pyLower field_name)))

/-- Whitespace-run collapsing on characters: each maximal run of whitespace
becomes a single underscore. -/
def collapseWsAux : Bool → List Char → List Char
  | _, [] => []
  | lastWs, c :: rest =>
    if c.isWhitespace then
      if lastWs then collapseWsAux true rest
      else '_' :: collapseWsAux true rest
    else c :: collapseWsAux false rest

/-- Modelled from the spec (§4.2), for comparison with the source's
`infer_cdm_key`: normalize by lower-casing, trimming, and COLLAPSING each
internal whitespace run to a single separator character. -/
def spec_normalize (s : String) : String :=
  String.mk (collapseWsAux false (pyStrip (pyLower s)).toList)

/-- The spec's engine (§4.2): spec normalization followed by the same
registry scan. -/
def infer_cdm_key_spec (field_name : String) : Option String :=
  findKeyByPatterns FIELD_PATTERNS (spec_normalize field_name)

theorem findKeyByPatterns_some (reg : List (String × List Pat))
    (normalized k : String) (h : findKeyByPatterns reg normalized = some k) :
    ∃ L R pats, reg = L ++ (k, pats) :: R ∧
      pats.any (fun p => patMatch p normalized) = true ∧
      ∀ e ∈ L, e.2.any (fun p => patMatch p normalized) = false := by
  induction reg with
  | nil => cases h
  | cons e rest ih =>
    rcases e with ⟨key, pats⟩
    unfold findKeyByPatterns at h
    by_cases hm : pats.any (fun p => patMatch p normalized) = true
    · rw [if_pos hm] at h
      cases h
      exact ⟨[], rest, pats, rfl, hm, fun e he => absurd he (List.not_mem_nil e)⟩
    · rw [if_neg hm] at h
      rcases ih h with ⟨L, R, pats', hreg, hmatch, hpre⟩
      refine ⟨(key, pats) :: L, R, pats', by rw [hreg]; rfl, hmatch, ?_⟩
      intro e he
      rcases List.mem_cons.mp he with h1 | h1
      · rw [h1]
        exact Bool.eq_false_iff.mpr hm
      · exact hpre e h1

theorem findKeyByPatterns_none (reg : List (String × List Pat))
    (normalized : String)
    (h : ∀ e ∈ reg, e.2.any (fun p => patMatch p normalized) = false) :
    findKeyByPatterns reg normalized = none := by
  induction reg with
  | nil => rfl
  | cons e rest ih =>
    rcases e with ⟨key, pats⟩
    unfold findKeyByPatterns
    rw [if_neg, ih (fun e he => h e (List.mem_cons_of_mem _ he))]
    rw [h (key, pats) (List.mem_cons_self _ _)]
    exact Bool.false_ne_true

/-- C4 counterexample: the engine does NOT collapse internal whitespace —
each space becomes its own underscore — so `"first  name"` (two internal
spaces) resolves to `none`, while under the spec's collapsing normalization
it would resolve to `person.first_name`. -/
theorem infer_cdm_key_no_collapse_cex :
    infer_cdm_key "first  name" = none ∧
    spec_normalize "first  name" = "first_name" ∧
    infer_cdm_key_spec "first  name" = some "person.first_name" ∧
    infer_cdm_key "first name" = some "person.first_name" := by
  refine ⟨by decide, by decide, by decide, by decide⟩

/-- C4 amended: the engine normalizes by lower-casing, trimming, and
replacing EACH space by an underscore (whitespace runs are not collapsed),
then scans registry keys in insertion order, returning the first key one of
whose anchored patterns matches the normalized string, and `none` when no
pattern in the registry matches; the docstring examples all resolve as
stated. -/
theorem infer_cdm_key_first_match_amended :
    (∀ (field_name k : String),
      infer_cdm_key field_name = some k →
        ∃ L R pats, FIELD_PATTERNS = L ++ (k, pats) :: R ∧
          pats.any (fun p => patMatch p
            (pyReplaceSpaceByUnderscore (pyStrip (pyLower field_name)))) = true ∧
          ∀ e ∈ L, e.2.any (fun p => patMatch p
            (pyReplaceSpaceByUnderscore (pyStrip (pyLower field_name)))) = false) ∧
    (∀ field_name : String,
      (∀ e ∈ FIELD_PATTERNS, e.2.any (fun p => patMatch p
          (pyReplaceSpaceByUnderscore (pyStrip (pyLower field_name)))) = false) →
        infer_cdm_key field_name = none) ∧
    (infer_cdm_key "first_name" = some "person.first_name" ∧
      infer_cdm_key "SSN" = some "person.ssn" ∧
      infer_cdm_key "mobile_number" = some "person.phone" ∧
      infer_cdm_key "  First Name " = some "person.first_name") := by
  refine ⟨?_, ?_, by decide, by decide, by decide, by decide⟩
  · intro field_name k h
    unfold infer_cdm_key at h
    exact findKeyByPatterns_some FIELD_PATTERNS _ k h
  · intro field_name h
    unfold infer_cdm_key
    exact findKeyByPatterns_none FIELD_PATTERNS _ h

/-- Witness for C4's amended theorem: a name matching no registry pattern
resolves to `none`. -/
theorem infer_cdm_key_first_match_amended_witness :
    infer_cdm_key "favourite_colour" = none :=
  infer_cdm_key_first_match_amended.2.1 "favourite_colour" (by decide)

-- ===========================================================================
-- C5: the fill-value resolver (field_mapper.py / static_pdf_processor.py)
-- ===========================================================================

/-- Loop body of `create_fill_mapping_direct` (`utils/field_mapper.py`,
lines 135-141): keep `(field, value)` only when the mapped key is truthy and
present in the CDM and the value is truthy with a non-empty strip. -/
def fill_step (cdm : Dict String) (fill_mapping : Dict String)
    (p : String × Option String) : Dict String :=
  match p.2 with
  | some cdm_key =>
    if cdm_key ≠ "" then
      match cdm cdm_key with
      | some value =>
        if value ≠ "" ∧ pyStrip value ≠ "" then
          fill_mapping.insert p.1 value
        else fill_mapping
      | none => fill_mapping
    else fill_mapping
  | none => fill_mapping

/-- `create_fill_mapping_direct` (`utils/field_mapper.py`), with the
`field_to_cdm` result of `map_fields_to_cdm_direct` passed explicitly (its
values may be JSON null). -/
def create_fill_mapping (field_to_cdm : List (String × Option String))
    (cdm : Dict String) : Dict String :=
  field_to_cdm.foldl (fill_step cdm) Dict.empty

/-- Loop body of step 3 of `process_static_pdf_with_cdm`
(`static_pdf_processor.py`, lines 293-298): copy the CDM value whenever the
field's mapped key is truthy and present in the CDM — with NO blank-value
check. -/
def field_values_step (field_to_cdm cdm_data : Dict String)
    (field_values : Dict String) (key_text : String) : Dict String :=
  match field_to_cdm key_text with
  | some cdm_key =>
    if cdm_key ≠ "" then
      match cdm_data cdm_key with
      | some v => field_values.insert key_text v
      | none => field_values
    else field_values
  | none => field_values

/-- Step 3 of `process_static_pdf_with_cdm` (`static_pdf_processor.py`),
iterating over the empty fields' `key_text`s. -/
def build_field_values (empty_fields : List String)
    (field_to_cdm cdm_data : Dict String) : Dict String :=
  empty_fields.foldl (field_values_step field_to_cdm cdm_data) Dict.empty

/-- The value-skip tests of `fill_pdf_with_values`
(`utils/static_pdf_utils.py`, lines 199-210): a field's value is written
only when the field is present in `field_values` with a truthy value whose
strip is non-empty.  (The geometric page/rect checks of the rendering step
are outside the modelled logic.) -/
def fill_writes_field (field_values : Dict String) (key : String) : Bool :=
  match field_values key with
  | some value => if value ≠ "" ∧ pyStrip value ≠ "" then true else false
  | none => false

def cexFillMap : Dict String := fun k => if k = "Name" then some "person.x" else none

def cexFillCdm : Dict String := fun k => if k = "person.x" then some "   " else none

theorem fill_step_lookup (cdm : Dict String) (acc : Dict String)
    (p : String × Option String) (f : String) :
    (fill_step cdm acc p) f = acc f ∨
      ∃ v, (fill_step cdm acc p) f = some v ∧ v ≠ "" ∧ pyStrip v ≠ "" := by
  rcases p with ⟨name, ck⟩
  rcases ck with _ | k
  · exact Or.inl rfl
  · unfold fill_step
    dsimp only
    by_cases hk : k ≠ ""
    · rw [if_pos hk]
      rcases hc : cdm k with _ | value
      · exact Or.inl rfl
      · dsimp only
        by_cases hv : value ≠ "" ∧ pyStrip value ≠ ""
        · rw [if_pos hv]
          by_cases hf : f = name
          · refine Or.inr ⟨value, ?_, hv⟩
            simp [Dict.insert, hf]
          · left
            simp [Dict.insert, hf]
        · rw [if_neg hv]
          exact Or.inl rfl
    · rw [if_neg hk]
      exact Or.inl rfl

theorem create_fill_fold_lookup (cdm : Dict String)
    (l : List (String × Option String)) (acc : Dict String) (f v : String)
    (h : (l.foldl (fill_step cdm) acc) f = some v) :
    acc f = some v ∨ (v ≠ "" ∧ pyStrip v ≠ "") := by
  induction l generalizing acc with
  | nil => exact Or.inl h
  | cons p t ih =>
    rw [List.foldl_cons] at h
    rcases ih (fill_step cdm acc p) h with h1 | h1
    · rcases fill_step_lookup cdm acc p f with h2 | ⟨v', h2, hv'⟩
      · exact Or.inl (h2 ▸ h1)
      · right
        rw [h1] at h2
        cases Option.some.inj h2
        exact hv'
    · exact Or.inr h1

theorem field_values_step_lookup (ftc cdm_data : Dict String)
    (fv : Dict String) (key f : String) :
    (field_values_step ftc cdm_data fv key) f = fv f ∨
      ∃ k v, ftc f = some k ∧ k ≠ "" ∧ cdm_data k = some v ∧
        (field_values_step ftc cdm_data fv key) f = some v := by
  unfold field_values_step
  rcases hc : ftc key with _ | k
  · left
    simp [hc]
  · simp only [hc]
    by_cases hk : k ≠ ""
    · rw [if_pos hk]
      rcases hd : cdm_data k with _ | v
      · exact Or.inl rfl
      · by_cases hf : f = key
        · refine Or.inr ⟨k, v, ?_, hk, hd, ?_⟩
          · rw [hf, hc]
          · simp [Dict.insert, hf]
        · left
          simp [Dict.insert, hf]
    · rw [if_neg hk]
      exact Or.inl rfl

theorem build_field_values_fold_lookup (ftc cdm_data : Dict String)
    (l : List String) (acc : Dict String) (f v : String)
    (h : (l.foldl (field_values_step ftc cdm_data) acc) f = some v) :
    acc f = some v ∨ ∃ k, ftc f = some k ∧ k ≠ "" ∧ cdm_data k = some v := by
  induction l generalizing acc with
  | nil => exact Or.inl h
  | cons key t ih =>
    rw [List.foldl_cons] at h
    rcases ih (field_values_step ftc cdm_data acc key) h with h1 | h1
    · rcases field_values_step_lookup ftc cdm_data acc key f with h2 | ⟨k, v', hk, hkne, hd, h2⟩
      · exact Or.inl (h2 ▸ h1)
      · right
        rw [h1] at h2
        cases Option.some.inj h2
        exact ⟨k, hk, hkne, hd⟩
    · exact Or.inr h1

/-- C5 counterexample: the static processor's FillSet (`field_values`) only
checks that the mapped schema key exists in the CDM — it copies a
whitespace-only CDM value verbatim, so the FillSet DOES contain an entry
whose value is whitespace-only. -/
theorem fill_set_blank_value_cex :
    build_field_values ["Name"] cexFillMap cexFillCdm "Name" = some "   " ∧
    pyStrip "   " = "" := by
  refine ⟨by decide, by decide⟩

/-- C5 amended: the direct resolver `create_fill_mapping_direct` includes an
entry only when the CDM value is truthy and non-empty after trimming, so its
FillSet never holds a blank value; the static processor's `field_values`
instead requires only that the mapped schema key be present in the CDM (its
values can be blank, see the counterexample), and blank suppression for that
path happens only downstream in `fill_pdf_with_values`, which skips absent,
empty, and whitespace-only values. -/
theorem fill_value_resolver_amended :
    (∀ (field_to_cdm : List (String × Option String)) (cdm : Dict String)
      (f v : String),
      create_fill_mapping field_to_cdm cdm f = some v →
        v ≠ "" ∧ pyStrip v ≠ "") ∧
    (∀ (empty_fields : List String) (field_to_cdm cdm_data : Dict String)
      (f v : String),
      build_field_values empty_fields field_to_cdm cdm_data f = some v →
        ∃ k, field_to_cdm f = some k ∧ k ≠ "" ∧ cdm_data k = some v) ∧
    (∀ (field_values : Dict String) (key : String),
      fill_writes_field field_values key = true →
        ∃ v, field_values key = some v ∧ v ≠ "" ∧ pyStrip v ≠ "") := by
  refine ⟨?_, ?_, ?_⟩
  · intro field_to_cdm cdm f v h
    unfold create_fill_mapping at h
    rcases create_fill_fold_lookup cdm field_to_cdm Dict.empty f v h with h1 | h1
    · cases h1
    · exact h1
  · intro empty_fields field_to_cdm cdm_data f v h
    unfold build_field_values at h
    rcases build_field_values_fold_lookup field_to_cdm cdm_data empty_fields
      Dict.empty f v h with h1 | h1
    · cases h1
    · exact h1
  · intro field_values key h
    unfold fill_writes_field at h
    rcases hv : field_values key with _ | v
    · rw [hv] at h
      dsimp only at h
      cases h
    · rw [hv] at h
      dsimp only at h
      by_cases hval : v ≠ "" ∧ pyStrip v ≠ ""
      · exact ⟨v, rfl, hval⟩
      · rw [if_neg hval] at h
        cases h

def witFillMap : List (String × Option String) := [("Fld", some "person.city")]

def witFillCdm : Dict String := fun k => if k = "person.city" then some "NYC" else none

/-- Witness for C5's amended theorem: the direct resolver's output value at
a concretely filled field strips to a non-empty string. -/
theorem fill_value_resolver_amended_witness :
    ("NYC" : String) ≠ "" ∧ pyStrip "NYC" ≠ "" :=
  fill_value_resolver_amended.1 witFillMap witFillCdm "Fld" "NYC" (by decide)

-- ===========================================================================
-- C9: fetch_from_cdm (utils/data_utils.py)
-- ===========================================================================

/-- `fetch_from_cdm` (`utils/data_utils.py`): for every mapped field, fetch
`cdm.get(cdm_path, "")` — the empty string when the schema key is absent. -/
def fetch_from_cdm (mapping : List (String × String)) (cdm : Dict String) :
    Dict String :=
  mapping.foldl (fun result p =>
    result.insert p.1 ((cdm p.2).getD "")) Dict.empty

theorem fetch_fold_frame (cdm : Dict String) (l : List (String × String))
    (acc : Dict String) (field : String)
    (h : field ∉ l.map Prod.fst) :
    (l.foldl (fun result p => result.insert p.1 ((cdm p.2).getD "")) acc) field
      = acc field := by
  induction l generalizing acc with
  | nil => rfl
  | cons p t ih =>
    rw [List.foldl_cons]
    have hne : field ≠ p.1 := fun hc => h (by rw [List.map_cons]; exact hc ▸ List.mem_cons_self _ _)
    rw [ih _ (fun hc => h (by rw [List.map_cons]; exact List.mem_cons_of_mem _ hc))]
    simp [Dict.insert, hne]

theorem fetch_fold_write (cdm : Dict String) (l : List (String × String))
    (field cdm_path : String) :
    ∀ acc : Dict String, (field, cdm_path) ∈ l → (l.map Prod.fst).Nodup →
      (l.foldl (fun result p => result.insert p.1 ((cdm p.2).getD "")) acc) field
        = some ((cdm cdm_path).getD "") := by
  induction l with
  | nil =>
    intro acc hmem _
    cases hmem
  | cons p t ih =>
    intro acc hmem hnd
    rw [List.map_cons] at hnd
    rcases List.nodup_cons.mp hnd with ⟨hp, ht⟩
    rw [List.foldl_cons]
    rcases List.mem_cons.mp hmem with h1 | h1
    · have hf : field ∉ t.map Prod.fst := by
        rw [← h1] at hp
        exact hp
      rw [fetch_fold_frame cdm t _ field hf, ← h1]
      simp [Dict.insert]
    · exact ih _ h1 ht

/-- C9: `fetch_from_cdm` returns a dict whose key set is exactly the key set
of `mapping`; each field maps to `cdm[cdm_path]` when present and to the
empty string otherwise (rather than being omitted). -/
theorem fetch_from_cdm_exact_keys :
    (∀ (mapping : List (String × String)) (cdm : Dict String) (field : String),
      field ∉ mapping.map Prod.fst → fetch_from_cdm mapping cdm field = none) ∧
    (∀ (mapping : List (String × String)) (cdm : Dict String)
      (field cdm_path : String),
      (field, cdm_path) ∈ mapping → (mapping.map Prod.fst).Nodup →
        fetch_from_cdm mapping cdm field = some ((cdm cdm_path).getD "")) := by
  constructor
  · intro mapping cdm field h
    unfold fetch_from_cdm
    rw [fetch_fold_frame cdm mapping Dict.empty field h]
    rfl
  · intro mapping cdm field cdm_path hmem hnd
    unfold fetch_from_cdm
    exact fetch_fold_write cdm mapping field cdm_path Dict.empty hmem hnd

def witFetchMapping : List (String × String) :=
  [("sig", "person.city"), ("abs", "missing.key")]

def witFetchCdm : Dict String := fun k => if k = "person.city" then some "NYC" else none

/-- Witness for C9: a mapped field whose schema key is present fetches the
CDM value, and one whose key is absent fetches the empty string. -/
theorem fetch_from_cdm_exact_keys_witness :
    fetch_from_cdm witFetchMapping witFetchCdm "sig"
        = some ((witFetchCdm "person.city").getD "") ∧
    fetch_from_cdm witFetchMapping witFetchCdm "abs"
        = some ((witFetchCdm "missing.key").getD "") ∧
    fetch_from_cdm witFetchMapping witFetchCdm "other" = none :=
  ⟨fetch_from_cdm_exact_keys.2 witFetchMapping witFetchCdm "sig" "person.city"
      (by decide) (by decide),
    fetch_from_cdm_exact_keys.2 witFetchMapping witFetchCdm "abs" "missing.key"
      (by decide) (by decide),
    fetch_from_cdm_exact_keys.1 witFetchMapping witFetchCdm "other" (by decide)⟩

-- ===========================================================================
-- C10: build_cdm_from_record (cdm_builder.py)
-- ===========================================================================

/-- A Python record value: `None`, a string, or data of any other type
(numbers etc., which the skip test never filters). -/
inductive PValue where
  | pnone
  | pstr (s : String)
  | pother
deriving DecidableEq, Repr

/-- The skip test of `build_cdm_from_record` (`cdm_builder.py`, line 144):
`value is None or (isinstance(value, str) and not value.strip())`. -/
def is_blank_value : PValue → Bool
  | PValue.pnone => true
  | PValue.pstr s => if pyStrip s = "" then true else false
  | PValue.pother => false

/-- Loop body of `build_cdm_from_record`: skip blank values, then resolve
the CDM key through the custom `field_mapping` first and `infer_cdm_key`
otherwise, storing the value when the resolved key is truthy. -/
def build_cdm_step (field_mapping : List (String × String))
    (cdm : Dict PValue) (p : String × PValue) : Dict PValue :=
  if is_blank_value p.2 then cdm
  else
    match
      (match field_mapping.lookup p.1 with
        | some k => some k
        | none => infer_cdm_key p.1) with
    | some cdm_key => if cdm_key ≠ "" then cdm.insert cdm_key p.2 else cdm
    | none => cdm

/-- `build_cdm_from_record` (`cdm_builder.py`): fold the record's fields
into a CDM dict. -/
def build_cdm_from_record (record : List (String × PValue))
    (field_mapping : List (String × String)) : Dict PValue :=
  record.foldl (build_cdm_step field_mapping) Dict.empty

theorem build_cdm_step_lookup (field_mapping : List (String × String))
    (cdm : Dict PValue) (p : String × PValue) (k : String) :
    (build_cdm_step field_mapping cdm p) k = cdm k ∨
      ((build_cdm_step field_mapping cdm p) k = some p.2 ∧
        is_blank_value p.2 = false) := by
  unfold build_cdm_step
  by_cases hb : is_blank_value p.2 = true
  · rw [if_pos hb]
    exact Or.inl rfl
  · rw [if_neg hb]
    rcases hres : (match field_mapping.lookup p.1 with
      | some k => some k
      | none => infer_cdm_key p.1) with _ | ck
    · left
      simp [hres]
    · simp only [hres]
      by_cases hk : ck ≠ ""
      · rw [if_pos hk]
        by_cases heq : k = ck
        · refine Or.inr ⟨?_, Bool.eq_false_iff.mpr hb⟩
          simp [Dict.insert, heq]
        · left
          simp [Dict.insert, heq]
      · rw [if_neg hk]
        exact Or.inl rfl

theorem build_cdm_fold_lookup (field_mapping : List (String × String))
    (l : List (String × PValue)) (k : String) (v : PValue) :
    ∀ acc : Dict PValue,
      (l.foldl (build_cdm_step field_mapping) acc) k = some v →
        acc k = some v ∨ is_blank_value v = false := by
  induction l with
  | nil => exact fun _ h => Or.inl h
  | cons p t ih =>
    intro acc h
    rw [List.foldl_cons] at h
    rcases ih _ h with h1 | h1
    · rcases build_cdm_step_lookup field_mapping acc p k with h2 | ⟨h2, hb⟩
      · exact Or.inl (h2 ▸ h1)
      · right
        rw [h1] at h2
        cases Option.some.inj h2
        exact hb
    · exact Or.inr h1

/-- C10: the CDM built from a record never contains an entry whose value is
`None` or a whitespace-only string: every string value in the result is
non-empty after stripping. -/
theorem build_cdm_from_record_no_blank
    (record : List (String × PValue)) (field_mapping : List (String × String))
    (k : String) (v : PValue)
    (h : build_cdm_from_record record field_mapping k = some v) :
    v ≠ PValue.pnone ∧ ∀ s, v = PValue.pstr s → pyStrip s ≠ "" := by
  unfold build_cdm_from_record at h
  rcases build_cdm_fold_lookup field_mapping record k v Dict.empty h with h1 | h1
  · cases h1
  · constructor
    · intro hv
      rw [hv] at h1
      cases h1
    · intro s hv
      rw [hv] at h1
      by_cases hs : pyStrip s = ""
      · exfalso
        have hb : is_blank_value (PValue.pstr s) = true := by
          simp [is_blank_value, hs]
        rw [hb] at h1
        cases h1
      · exact hs

/-- Witness for C10: a concrete record field with a non-blank value lands in
the CDM with a non-blank string value. -/
theorem build_cdm_from_record_no_blank_witness :
    PValue.pstr "Jane" ≠ PValue.pnone ∧
      ∀ s, PValue.pstr "Jane" = PValue.pstr s → pyStrip s ≠ "" :=
  build_cdm_from_record_no_blank [("first_name", PValue.pstr "Jane")] []
    "person.first_name" (PValue.pstr "Jane") (by decide)

-- ===========================================================================
-- C8: the spatial label resolver.  The repository's source contains no
-- geometric label resolver (its label text comes from Textract key blocks
-- or from the widget names), so the definitions below are modelled from the
-- spec's §4.3 algorithm.  Coordinates are represented in integer hundredths
-- of the spec's normalized 0-1 page space, and rectangle centres are kept
-- doubled (`cx2 = x0 + x1`) so that all geometry stays in exact integer
-- arithmetic; every comparison is scaled consistently, so the selection
-- order is exactly that of the real-valued geometry.
-- ===========================================================================

/-- Modelled from the spec: a rectangle of the normalized page space, in
integer hundredths, written corner-to-corner as in the spec's scenario
`rect=(0.50,0.30,0.70,0.33)` (which becomes `(50,30,70,33)`). -/
structure Rect where
  x0 : Int
  y0 : Int
  x1 : Int
  y1 : Int
deriving DecidableEq

/-- Twice the x coordinate of the rectangle centre. -/
def Rect.cx2 (r : Rect) : Int := r.x0 + r.x1

/-- Twice the y coordinate of the rectangle centre. -/
def Rect.cy2 (r : Rect) : Int := r.y0 + r.y1

/-- Modelled from the spec: a TextRun (§3) — rendered text with a rectangle
and a page. -/
structure TextRun where
  text : String
  rect : Rect
  page : Nat
deriving DecidableEq

/-- Modelled from the spec: the geometric part of a Region (§3) needed by
`resolveLabel`. -/
structure SpecRegion where
  rect : Rect
  page : Nat

/-- Four times the squared Euclidean distance between two rectangle centres
(squared distances on doubled centres; comparing these is equivalent to
comparing the Euclidean distances themselves). -/
def dist2 (a b : Rect) : Int :=
  (a.cx2 - b.cx2) * (a.cx2 - b.cx2) + (a.cy2 - b.cy2) * (a.cy2 - b.cy2)

def intAbs (x : Int) : Int := if x < 0 then -x else x

/-- Modelled from the spec: the horizontal alignment tolerance of priority
class 1 (about 50 units). -/
def hAlignTol : Int := 50

/-- Modelled from the spec: the vertical alignment tolerance of priority
class 2 (about 20 units). -/
def vAlignTol : Int := 20

def runAbove (run reg : Rect) : Prop := run.y1 < reg.y0

def runLeftOf (run reg : Rect) : Prop := run.x1 < reg.x0

def runHAligned (run reg : Rect) : Prop :=
  intAbs (run.cx2 - reg.cx2) ≤ 2 * hAlignTol

def runVAligned (run reg : Rect) : Prop :=
  intAbs (run.cy2 - reg.cy2) ≤ 2 * vAlignTol

instance (run reg : Rect) : Decidable (runAbove run reg) :=
  inferInstanceAs (Decidable (run.y1 < reg.y0))

instance (run reg : Rect) : Decidable (runLeftOf run reg) :=
  inferInstanceAs (Decidable (run.x1 < reg.x0))

instance (run reg : Rect) : Decidable (runHAligned run reg) :=
  inferInstanceAs (Decidable (intAbs (run.cx2 - reg.cx2) ≤ 2 * hAlignTol))

instance (run reg : Rect) : Decidable (runVAligned run reg) :=
  inferInstanceAs (Decidable (intAbs (run.cy2 - reg.cy2) ≤ 2 * vAlignTol))

/-- Modelled from the spec: the four positional priority classes of §4.3,
with runs below or to the right in a lowest fifth class. -/
def runPriority (run reg : Rect) : Nat :=
  if runAbove run reg ∧ runHAligned run reg then 1
  else if runLeftOf run reg ∧ runVAligned run reg then 2
  else if runAbove run reg then 3
  else if runLeftOf run reg then 4
  else 5

/-- Whitespace-run collapsing to a single space (the label-cleaning
counterpart of `collapseWsAux`). -/
def collapseSpacesAux : Bool → List Char → List Char
  | _, [] => []
  | lastWs, c :: rest =>
    if c.isWhitespace then
      if lastWs then collapseSpacesAux true rest
      else ' ' :: collapseSpacesAux true rest
    else c :: collapseSpacesAux false rest

/-- Modelled from the spec: instruction-text test — the cleaned text leads
with one of the instruction verbs, case-insensitively. -/
def isInstructionText (s : String) : Bool :=
  ["please", "click", "enter", "select", "check"].any
    (fun v => v.toList.isPrefixOf (pyLower s).toList)

/-- Modelled from the spec: label cleaning of §4.3 — collapse whitespace,
strip trailing colons/asterisks, strip surrounding whitespace; drop text
over 100 characters and drop instruction text (resolving to none). -/
def cleanLabel (text : String) : Option String :=
  let collapsed := String.mk (collapseSpacesAux false text.toList)
  let noTrailing := String.mk
    ((collapsed.toList.reverse.dropWhile (fun c => c = ':' || c = '*')).reverse)
  let cleaned := pyStrip noTrailing
  if cleaned.length > 100 then none
  else if isInstructionText cleaned then none
  else some cleaned

/-- Strict lexicographic comparison on (priority class, squared distance):
the first run is a strictly better label candidate than the second. -/
def betterCandidate (reg : Rect) (a b : TextRun) : Prop :=
  runPriority a.rect reg < runPriority b.rect reg ∨
    (runPriority a.rect reg = runPriority b.rect reg ∧
      dist2 a.rect reg < dist2 b.rect reg)

instance (reg : Rect) (a b : TextRun) : Decidable (betterCandidate reg a b) :=
  inferInstanceAs (Decidable (_ ∨ _))

/-- Modelled from the spec: `resolveLabel(region, textRuns, searchRadius)`
(§4.3) — keep the runs on the region's page within the search radius
(`dist2` holds 4 times the squared distance, hence the factor), pick the
minimum under (priority class, distance) with earlier runs winning ties,
and return the winner's cleaned text, or none without candidates. -/
def resolveLabel (region : SpecRegion) (textRuns : List TextRun)
    (searchRadius : Int) : Option String :=
  let candidates := textRuns.filter (fun run =>
    run.page == region.page &&
      decide (dist2 run.rect region.rect ≤ 4 * (searchRadius * searchRadius)))
  match candidates with
  | [] => none
  | c :: rest =>
    let winner := rest.foldl
      (fun best run => if betterCandidate region.rect run best then run else best) c
    cleanLabel winner.text

/-- C8 (spec-modelled): for the region at `rect=(0.50,0.30,0.70,0.33)` and a
TextRun `"Last Name:"` at `rect=(0.50,0.26,0.60,0.29)` on the same page —
strictly above, horizontally aligned (priority class 1), within a search
radius of 0.10 — `resolveLabel` returns `"Last Name"` with the trailing
colon stripped. -/
theorem resolveLabel_last_name_scenario :
    resolveLabel ⟨⟨50, 30, 70, 33⟩, 1⟩
      [⟨"Last Name:", ⟨50, 26, 60, 29⟩, 1⟩] 10 = some "Last Name" ∧
    runAbove ⟨50, 26, 60, 29⟩ ⟨50, 30, 70, 33⟩ ∧
    runHAligned ⟨50, 26, 60, 29⟩ ⟨50, 30, 70, 33⟩ ∧
    runPriority ⟨50, 26, 60, 29⟩ ⟨50, 30, 70, 33⟩ = 1 := by
  refine ⟨by decide, by decide, by decide, by decide⟩

end PdfPreformFill
